import Mathlib

/-!
A shallow embedding of the lexicon store of the "definitions" dictionary
application, together with proofs about its server actions.

The server actions (`addWord`, `addDefinition`, `addExample`, `addMention`,
`Report`) are translated from `src/lib/actions.ts`.  The storage layer
(`getDB`, shard objects with `add` / `getWhere` / `getIndexOf` / `get` /
`update` / `updateWhere`) is not part of the sources; those primitives are
modelled from the design spec (sections 4.1 and 4.2), as marked on each
definition.

Modelling conventions:
* JavaScript strings are Lean `String`s; `toLowerCase()` and `slice(0, 2)`
  are embedded as per-character operations on `String.data` (the forms only
  carry ordinary text, so UTF-16 subtleties are out of scope).
* The `V` / `NV` counters (approvals / disapprovals) are `Nat`: the code
  only ever initialises them to 0 or 1 and increments them.
* `FormData` is a partial map from field names to strings; `get` on an
  absent field yields `none` (JavaScript `null`), which makes the zod
  `safeParse` fail exactly as a non-string value does.
* mutation of the store is made explicit: every action takes the store and
  returns the caller-visible `State` together with the resulting store.
* a thrown JavaScript exception that an action catches is modelled as an
  `Except.error` value; the catch handler produces the generic
  "Something went wrong!" state and leaves the store untouched.
-/

namespace Lexicon

/-- A definition sub-record (source type `Definition`): content text, the
reference it was taken from, and the approval (`V`) / disapproval (`NV`)
counters. -/
structure Definition where
  text : String
  reference : String
  V : Nat
  NV : Nat
deriving Repr, DecidableEq

/-- An example sub-record (source type `Example`). -/
structure Example where
  text : String
  reference : String
  V : Nat
  NV : Nat
deriving Repr, DecidableEq

/-- A citation sub-record (source type `Mention`): title and hyperlink. -/
structure Mention where
  title : String
  hyperlink : String
  V : Nat
  NV : Nat
deriving Repr, DecidableEq

/-- A word document as stored in a shard (source type `Word`). -/
structure Word where
  text : String
  definitions : List Definition
  examples : List Example
  mentions : List Mention
  V : Nat
  NV : Nat
deriving Repr, DecidableEq

/-- The request form: a partial map from field names to submitted string
values, mirroring `FormData.get` which returns the value or `null`. -/
structure FormData where
  get : String → Option String

/-- Per-character lowercasing, embedding `String.prototype.toLowerCase`. -/
def strLower (s : String) : String := ⟨s.data.map Char.toLower⟩

/-- First `n` characters of a string (the whole string when shorter),
embedding `String.prototype.slice(0, n)`. -/
def strTake (s : String) (n : Nat) : String := ⟨s.data.take n⟩

/-- zod `z.string().min(lo).max(hi)` applied to a form value: succeeds with
the string itself iff the value is present and its length is within bounds. -/
def zlen (lo hi : Nat) : Option String → Option String
  | none => none
  | some s => if lo ≤ s.length ∧ s.length ≤ hi then some s else none

/-- zod `z.string().startsWith("https://")` applied to a form value. -/
def zhttps : Option String → Option String
  | none => none
  | some s => if "https://".data.isPrefixOf s.data then some s else none

/-- The fields of `addDefinitionSchema` (also used by `addWord`):
`word_text` (2 to 50 chars), `def_content` (10 to 255), `def_reference`
(10 to 45). -/
structure AddDefinitionFields where
  word_text : String
  def_content : String
  def_reference : String
deriving Repr, DecidableEq

/-- The fields of `addExampleSchema`: `word_text` (2 to 50),
`example_text` (10 to 145), `example_reference` (up to 45). -/
structure AddExampleFields where
  word_text : String
  example_text : String
  example_reference : String
deriving Repr, DecidableEq

/-- The fields of `addMentionSchema`: `word_text` (2 to 50),
`mention_title` (10 to 45), `mention_hyperlink` (an `https://` URL). -/
structure AddMentionFields where
  word_text : String
  mention_title : String
  mention_hyperlink : String
deriving Repr, DecidableEq

/-- The fields of `reportSchema`: only `word_text` (2 to 50 chars) and
`report_element` (any string); the schema accepts no element identifier. -/
structure ReportFields where
  word_text : String
  report_element : String
deriving Repr, DecidableEq

/-- `addDefinitionSchema.safeParse` on the three form fields read by
`addWord` and `addDefinition`. -/
def parseAddDefinitionForm (fd : FormData) : Option AddDefinitionFields :=
  match zlen 2 50 (fd.get "word_text"), zlen 10 255 (fd.get "def_content"),
      zlen 10 45 (fd.get "def_reference") with
  | some wt, some dc, some dr => some ⟨wt, dc, dr⟩
  | _, _, _ => none

/-- `addExampleSchema.safeParse` on the fields read by `addExample`. -/
def parseAddExampleForm (fd : FormData) : Option AddExampleFields :=
  match zlen 2 50 (fd.get "word_text"), zlen 10 145 (fd.get "example_text"),
      zlen 0 45 (fd.get "example_reference") with
  | some wt, some et, some er => some ⟨wt, et, er⟩
  | _, _, _ => none

/-- `addMentionSchema.safeParse` on the fields read by `addMention`. -/
def parseAddMentionForm (fd : FormData) : Option AddMentionFields :=
  match zlen 2 50 (fd.get "word_text"), zlen 10 45 (fd.get "mention_title"),
      zhttps (fd.get "mention_hyperlink") with
  | some wt, some mt, some mh => some ⟨wt, mt, mh⟩
  | _, _, _ => none

/-- `reportSchema.safeParse` on the two fields read by `Report`. -/
def parseReportForm (fd : FormData) : Option ReportFields :=
  match zlen 2 50 (fd.get "word_text"), fd.get "report_element" with
  | some wt, some re => some ⟨wt, re⟩
  | _, _ => none

/-- The persistent store, as the map from shard keys to the ordered list of
word documents of that shard.  Modelled from the spec: section 4.2, a shard
is addressed by a deterministic key and holds an ordered sequence of Words. -/
abbrev Store : Type := String → List Word

/-- Modelled from the spec: `shardFor` / `getDB().get` routing, section 4.2:
`key = lowercase(text)[0:2]` (the whole lowercased string when shorter than
2 characters).  The actions pass `word_text.slice(0, 2)` to `get`; applying
the canonicalisation again is idempotent on such inputs. -/
def shardKey (k : String) : String := strTake (strLower k) 2

/-- Replaces the word list stored under `key`, leaving other shards alone.
Modelled from the spec: persisting the mutated shard, section 2. -/
def setShard (st : Store) (key : String) (ws : List Word) : Store :=
  fun k => if k = key then ws else st k

/-- Modelled from the spec: `findFirst` (section 4.1), the shard `getWhere`
used by the actions: first word of the shard satisfying the predicate,
`none` for the NotFound result. -/
def getWhere (ws : List Word) (p : Word → Bool) : Option Word := ws.find? p

/-- The truthiness test the actions apply to a `getWhere` result: they read
`.text` of the returned record and branch on it being a non-empty string.
Modelled from the spec: the NotFound result carries no text, so the test
reads it as the empty (falsy) string. -/
def foundText : Option Word → String
  | some w => w.text
  | none => ""

/-- Modelled from the spec: `updateWhere` (section 4.1) replaces the first
word satisfying the predicate by the result of the update function and is a
silent no-op when nothing matches.  The update functions of the actions
return a partial patch merged over the current record; they are embedded as
total `Word → Word` functions, the equivalent contract of section 4.1. -/
def updateWhere (p : Word → Bool) (f : Word → Word) : List Word → List Word
  | [] => []
  | w :: ws => if p w then f w :: ws else w :: updateWhere p f ws

/-- Modelled from the spec: a lookup of a word by its text (sections 8 and
glossary): the text is canonicalised to lowercase, routed to its shard, and
matched against the stored texts. -/
def lookupWord (st : Store) (t : String) : Option Word :=
  (st (shardKey (strTake (strLower t) 2))).find? (fun w => w.text == strLower t)

/-- Severity of a result message (source union `success | warning | error`). -/
inductive MsgType where
  | success
  | warning
  | error
deriving Repr, DecidableEq

/-- A caller-visible message (`State.message` in the source). -/
structure Message where
  text : String
  type : MsgType
deriving Repr, DecidableEq

/-- Optional per-field error lists (`State.errors` in the source). -/
structure FieldErrors where
  word_text : List String
  def_content : List String
  def_reference : List String
deriving Repr, DecidableEq

/-- Field error lists attached to a failed zod parse.  The concrete
zod-generated messages are abstracted into a fixed marker value: no claim
inspects them, only the presence of the `errors` field and the message
type. -/
def validationFieldErrors : FieldErrors :=
  ⟨["invalid field"], ["invalid field"], ["invalid field"]⟩

/-- The caller-visible result state of an action (source type `State`):
a message with a severity and optional per-field errors. -/
structure State where
  message : Message
  errors : Option FieldErrors
deriving Repr, DecidableEq

/-- The result of a failed `safeParse`: the generic submission error with
the flattened field errors attached. -/
def submitErrorState : State :=
  ⟨⟨"Error submitting the form!", MsgType.error⟩, some validationFieldErrors⟩

/-- The word document built by `addWord`: lowercased text, one seeded
definition carrying the submitted content and reference, one placeholder
example and one placeholder mention (all counters start at `V = 1`,
`NV = 0`). -/
def mkNewWord (wt dc dr : String) : Word :=
  { text := strLower wt
    definitions := [⟨dc, dr, 1, 0⟩]
    examples := [⟨"", "", 1, 0⟩]
    mentions := [⟨"", "", 1, 0⟩]
    V := 1
    NV := 0 }

/-- The `addWord` server action: validates the form with
`addDefinitionSchema`, builds the new word, routes to the shard of the
first two characters of the lowercased text, rejects with a warning when a
word of the same text is already stored, and otherwise appends the word. -/
def addWord (fd : FormData) (st : Store) : State × Store :=
  match parseAddDefinitionForm fd with
  | none => (submitErrorState, st)
  | some f =>
    let newWord := mkNewWord f.word_text f.def_content f.def_reference
    let key := shardKey (strTake newWord.text 2)
    let shard := st key
    let ex := getWhere shard (fun w => w.text == newWord.text)
    if foundText ex ≠ "" then
      (⟨⟨newWord.text ++ " already exists.", MsgType.warning⟩,
        some ⟨["word already exists"], [], []⟩⟩, st)
    else
      (⟨⟨newWord.text ++ " has been successfully added.", MsgType.success⟩, none⟩,
       setShard st key (shard ++ [newWord]))

/-- The `addDefinition` server action: validates the form, then scans every
word of the shard of `word_text.slice(0, 2)` for a definition with the same
reference (rejecting when one is found anywhere in the shard), and
otherwise appends the new definition to the first word whose text equals
the submitted `word_text` verbatim (a silent no-op when none matches).
Note that unlike `addWord` it does not lowercase `word_text`. -/
def addDefinition (fd : FormData) (st : Store) : State × Store :=
  match parseAddDefinitionForm fd with
  | none => (submitErrorState, st)
  | some f =>
    let newDef : Definition := ⟨f.def_content, f.def_reference, 1, 0⟩
    let key := shardKey (strTake f.word_text 2)
    let shard := st key
    let ex := getWhere shard
      (fun w => (w.definitions.find? (fun d => d.reference == newDef.reference)).isSome)
    if foundText ex ≠ "" then
      (⟨⟨"Failed: there is already a definition from the same reference included!",
         MsgType.error⟩, none⟩, st)
    else
      (⟨⟨"Your definition has been added successfully. Refresh the page and check it out.",
         MsgType.success⟩, none⟩,
       setShard st key (updateWhere (fun w => w.text == f.word_text)
         (fun prev => { prev with definitions := prev.definitions ++ [newDef] }) shard))

/-- The `addExample` server action: validates the form and appends the new
example to the first word of the shard whose text equals the submitted
`word_text` verbatim (a silent no-op when none matches). -/
def addExample (fd : FormData) (st : Store) : State × Store :=
  match parseAddExampleForm fd with
  | none => (submitErrorState, st)
  | some f =>
    let newExample : Example := ⟨f.example_text, f.example_reference, 1, 0⟩
    let key := shardKey (strTake f.word_text 2)
    let shard := st key
    (⟨⟨"The example has been added successfully. Refresh the page and check it out.",
       MsgType.success⟩, none⟩,
     setShard st key (updateWhere (fun w => w.text == f.word_text)
       (fun prev => { prev with examples := prev.examples ++ [newExample] }) shard))

/-- The `addMention` server action (citations): validates the form and
appends the new mention to the first word of the shard whose text equals
the submitted `word_text` verbatim (a silent no-op when none matches). -/
def addMention (fd : FormData) (st : Store) : State × Store :=
  match parseAddMentionForm fd with
  | none => (submitErrorState, st)
  | some f =>
    let newMention : Mention := ⟨f.mention_title, f.mention_hyperlink, 1, 0⟩
    let key := shardKey (strTake f.word_text 2)
    let shard := st key
    (⟨⟨"The data has been added successfully. Refresh the page and check it out.",
       MsgType.success⟩, none⟩,
     setShard st key (updateWhere (fun w => w.text == f.word_text)
       (fun prev => { prev with mentions := prev.mentions ++ [newMention] }) shard))

/-- A JavaScript exception raised inside the `try` block of `Report` and
caught by its handler. -/
inductive ThrownError where
  | undefinedVariableAccess
deriving Repr, DecidableEq

/-- The `reportElement` helper.  For `element_type = "word"` it increments
the word disapproval counter `NV` by 2.  Every other branch of the source
dereferences an identifier that is not in scope anywhere in the module and
therefore raises at run time: the `"definition"` branch compares against the
undeclared `element_id` inside `findIndex` (raising a ReferenceError on the
first callback call, or a TypeError from indexing with `-1` when the list is
empty), and the remaining branch conditions read `element.type` where
`element` is likewise undeclared.  The explicit `throw` of the final `else`
is unreachable.  All of these raised exceptions are modelled as the single
`Except.error` outcome. -/
def reportElement (word : Word) (element_type : String) : Except ThrownError Word :=
  if element_type == "word" then
    Except.ok { word with NV := word.NV + 2 }
  else
    Except.error ThrownError.undefinedVariableAccess

/-- The `Report` server action: parses the two-field report form, rejects
unauthenticated callers before inspecting the parse result, locates the
word by verbatim text match in the shard of `word_text.slice(0, 2)` (the
not-found outcome is modelled from the spec, section 4.3: a terminal
failure leaving the store untouched), checks the element type against the
whitelist, applies `reportElement`, and persists the updated word at its
index.  A raised exception is caught and surfaced as the generic
"Something went wrong!" error with the store untouched. -/
def Report (authed : Bool) (fd : FormData) (st : Store) : State × Store :=
  let val := parseReportForm fd
  if !authed then
    (⟨⟨"You have to login in order to report items.", MsgType.error⟩, none⟩, st)
  else
    match val with
    | none => (submitErrorState, st)
    | some f =>
      let key := shardKey (strTake f.word_text 2)
      let shard := st key
      match shard.findIdx? (fun w => w.text == f.word_text) with
      | none => (⟨⟨"Cannot find the word ", MsgType.error⟩, none⟩, st)
      | some i =>
        match shard[i]? with
        | none => (⟨⟨"Cannot find the word ", MsgType.error⟩, none⟩, st)
        | some word =>
          if word.text == "" then
            (⟨⟨"Cannot find the word " ++ word.text, MsgType.error⟩, none⟩, st)
          else if !(f.report_element == "word" || f.report_element == "definition"
                    || f.report_element == "example" || f.report_element == "mention") then
            (⟨⟨"Invalid input!", MsgType.error⟩, none⟩, st)
          else
            match reportElement word f.report_element with
            | Except.error _ =>
              (⟨⟨"Something went wrong!", MsgType.error⟩, none⟩, st)
            | Except.ok w2 =>
              (⟨⟨"Done. Thanks for reporting.", MsgType.success⟩, none⟩,
               setShard st key (shard.set i w2))

/-- A report form holding exactly the two fields `Report` reads. -/
def mkReportForm (wt re : String) : FormData :=
  ⟨fun k => if k = "word_text" then some wt
    else if k = "report_element" then some re else none⟩

/-- A definition form holding the three fields `addWord` / `addDefinition`
read. -/
def mkDefinitionForm (wt dc dr : String) : FormData :=
  ⟨fun k => if k = "word_text" then some wt
    else if k = "def_content" then some dc
    else if k = "def_reference" then some dr else none⟩

/-- An example form holding the three fields `addExample` reads. -/
def mkExampleForm (wt et er : String) : FormData :=
  ⟨fun k => if k = "word_text" then some wt
    else if k = "example_text" then some et
    else if k = "example_reference" then some er else none⟩

/-- A stored word used as a concrete test fixture. -/
def sampleWord : Word :=
  ⟨"test", [⟨"a word used for testing things", "reference-of-test", 1, 0⟩],
   [⟨"", "", 1, 0⟩], [⟨"", "", 1, 0⟩], 1, 0⟩

/-- A store holding exactly `sampleWord`, in its shard `"te"`. -/
def sampleStore : Store := fun k => if k = "te" then [sampleWord] else []

theorem strLower_length (s : String) : (strLower s).length = s.length := by
  obtain ⟨l⟩ := s
  show (l.map Char.toLower).length = l.length
  exact l.length_map _

theorem strLower_ne_empty {s : String} (h : 1 ≤ s.length) : strLower s ≠ "" := by
  intro hc
  have hlen : (strLower s).length = 0 := by rw [hc]; rfl
  rw [strLower_length] at hlen
  omega

theorem setShard_self (st : Store) (key : String) (ws : List Word) :
    setShard st key ws key = ws := by
  unfold setShard
  simp

theorem setShard_same_store (st : Store) (key : String) :
    setShard st key (st key) = st := by
  funext k
  unfold setShard
  split
  · rename_i h
    rw [h]
  · rfl

theorem updateWhere_no_match {p : Word → Bool} {f : Word → Word} {l : List Word}
    (h : ∀ w ∈ l, p w = false) : updateWhere p f l = l := by
  induction l with
  | nil => rfl
  | cons w ws ih =>
    unfold updateWhere
    rw [h w (List.mem_cons_self w ws)]
    simp only [Bool.false_eq_true, if_false]
    rw [ih (fun x hx => h x (List.mem_cons_of_mem w hx))]

theorem find?_updateWhere {p : Word → Bool} {f : Word → Word} {l : List Word} {w : Word}
    (hfind : l.find? p = some w) (hfw : p (f w) = true) :
    (updateWhere p f l).find? p = some (f w) := by
  induction l with
  | nil => simp at hfind
  | cons x xs ih =>
    by_cases hx : p x = true
    · rw [List.find?_cons_of_pos _ hx] at hfind
      injection hfind with hxw
      subst hxw
      unfold updateWhere
      rw [if_pos hx]
      exact List.find?_cons_of_pos _ hfw
    · have hx2 : p x = false := by
        cases hpx : p x
        · rfl
        · exact absurd hpx hx
      rw [List.find?_cons_of_neg _ (by simp [hx2])] at hfind
      unfold updateWhere
      rw [hx2]
      simp only [Bool.false_eq_true, if_false]
      rw [List.find?_cons_of_neg _ (by simp [hx2])]
      exact ih hfind

/-- Pointwise ordering of two lists up to the length of the first: the
second list extends the first and each position did not shrink under `r`.
Captures that an operation only appends records and only grows counters. -/
inductive PrefLe (r : α → α → Prop) : List α → List α → Prop where
  | nil : ∀ l, PrefLe r [] l
  | cons : ∀ {a b : α} {l l2 : List α}, r a b → PrefLe r l l2 → PrefLe r (a :: l) (b :: l2)

theorem prefLe_refl {r : α → α → Prop} (hr : ∀ x, r x x) : ∀ l, PrefLe r l l
  | [] => PrefLe.nil []
  | x :: xs => PrefLe.cons (hr x) (prefLe_refl hr xs)

theorem prefLe_append {r : α → α → Prop} (hr : ∀ x, r x x) (l t : List α) :
    PrefLe r l (l ++ t) := by
  induction l with
  | nil => exact PrefLe.nil t
  | cons x xs ih => exact PrefLe.cons (hr x) ih

theorem prefLe_updateWhere {r : Word → Word → Prop} (hr : ∀ x, r x x)
    (p : Word → Bool) (f : Word → Word) (hf : ∀ x, r x (f x)) :
    ∀ l, PrefLe r l (updateWhere p f l) := by
  intro l
  induction l with
  | nil => exact PrefLe.nil _
  | cons w ws ih =>
    unfold updateWhere
    split
    · exact PrefLe.cons (hf w) (prefLe_refl hr ws)
    · exact PrefLe.cons (hr w) ih

theorem prefLe_set {r : α → α → Prop} (hr : ∀ x, r x x) (l : List α) (i : Nat) (b : α)
    (h : ∀ a, l[i]? = some a → r a b) : PrefLe r l (l.set i b) := by
  induction l generalizing i with
  | nil => exact PrefLe.nil _
  | cons x xs ih =>
    cases i with
    | zero => exact PrefLe.cons (h x (by simp)) (prefLe_refl hr xs)
    | succ n =>
      exact PrefLe.cons (hr x) (ih n (fun a ha => h a (by simpa using ha)))

/-- Score ordering on definitions: neither counter decreased. -/
def defLe (d d2 : Definition) : Prop := d.V ≤ d2.V ∧ d.NV ≤ d2.NV

/-- Score ordering on examples: neither counter decreased. -/
def exampleLe (e e2 : Example) : Prop := e.V ≤ e2.V ∧ e.NV ≤ e2.NV

/-- Score ordering on mentions: neither counter decreased. -/
def mentionLe (m m2 : Mention) : Prop := m.V ≤ m2.V ∧ m.NV ≤ m2.NV

/-- Score ordering on word documents: the word counters did not decrease
and each sub-record collection was only extended, with the counters of
every pre-existing sub-record not decreasing. -/
def wordLe (w w2 : Word) : Prop :=
  w.V ≤ w2.V ∧ w.NV ≤ w2.NV ∧
  PrefLe defLe w.definitions w2.definitions ∧
  PrefLe exampleLe w.examples w2.examples ∧
  PrefLe mentionLe w.mentions w2.mentions

/-- Score ordering on whole stores: every record existing in both stores
kept its position and its counters did not decrease. -/
def storeLe (st st2 : Store) : Prop := ∀ k, PrefLe wordLe (st k) (st2 k)

theorem defLe_refl (d : Definition) : defLe d d := ⟨le_refl _, le_refl _⟩

theorem exampleLe_refl (e : Example) : exampleLe e e := ⟨le_refl _, le_refl _⟩

theorem mentionLe_refl (m : Mention) : mentionLe m m := ⟨le_refl _, le_refl _⟩

theorem wordLe_refl (w : Word) : wordLe w w :=
  ⟨le_refl _, le_refl _, prefLe_refl defLe_refl _, prefLe_refl exampleLe_refl _,
   prefLe_refl mentionLe_refl _⟩

theorem storeLe_refl (st : Store) : storeLe st st := fun _ => prefLe_refl wordLe_refl _

theorem storeLe_setShard {st : Store} {key : String} {ws : List Word}
    (h : PrefLe wordLe (st key) ws) : storeLe st (setShard st key ws) := by
  intro k
  unfold setShard
  split
  · rename_i hk
    rw [hk]
    exact h
  · exact prefLe_refl wordLe_refl _

theorem parseAddDefinitionForm_eq {fd : FormData} {wt dc dr : String}
    (hwt : fd.get "word_text" = some wt) (hdc : fd.get "def_content" = some dc)
    (hdr : fd.get "def_reference" = some dr)
    (hw1 : 2 ≤ wt.length) (hw2 : wt.length ≤ 50)
    (hc1 : 10 ≤ dc.length) (hc2 : dc.length ≤ 255)
    (hr1 : 10 ≤ dr.length) (hr2 : dr.length ≤ 45) :
    parseAddDefinitionForm fd = some ⟨wt, dc, dr⟩ := by
  unfold parseAddDefinitionForm zlen
  rw [hwt, hdc, hdr]
  dsimp only
  rw [if_pos ⟨hw1, hw2⟩, if_pos ⟨hc1, hc2⟩, if_pos ⟨hr1, hr2⟩]

theorem parseAddExampleForm_eq {fd : FormData} {wt et er : String}
    (hwt : fd.get "word_text" = some wt) (het : fd.get "example_text" = some et)
    (her : fd.get "example_reference" = some er)
    (hw1 : 2 ≤ wt.length) (hw2 : wt.length ≤ 50)
    (he1 : 10 ≤ et.length) (he2 : et.length ≤ 145)
    (hr2 : er.length ≤ 45) :
    parseAddExampleForm fd = some ⟨wt, et, er⟩ := by
  unfold parseAddExampleForm zlen
  rw [hwt, het, her]
  dsimp only
  rw [if_pos ⟨hw1, hw2⟩, if_pos ⟨he1, he2⟩, if_pos ⟨Nat.zero_le _, hr2⟩]

/-- C1: the claim states that an authenticated `Report` with element type
`definition` and an element id equal to the reference of an existing
definition increments exactly that definition disapproval counter by 2 and
leaves every other score unchanged.  The code cannot do this: the report
form carries no element id at all, and the `definition` branch of
`reportElement` dereferences the undeclared identifier `element_id`, so the
call raises, is caught, returns the generic error, and changes no score.
This theorem evaluates the code at the failing input: the store holds the
word `test` with one definition, the caller is authenticated, and the
report names element type `definition`; the result is the generic error
and the store (hence every counter) is untouched. -/
theorem C1_report_definition_throws_and_changes_nothing :
    Report true (mkReportForm "test" "definition") sampleStore =
      (⟨⟨"Something went wrong!", MsgType.error⟩, none⟩, sampleStore) := rfl

/-- C4: the claim states that an authenticated `Report` with a sub-record
element type and an element id matching no sub-record fails with
`ElementNotFound` and mutates nothing.  The code accepts no element id and
every sub-record branch of `reportElement` raises on an undeclared
identifier, so every sub-record report, matching or not, is caught and
surfaced as the generic error, never as `ElementNotFound`; nothing is
mutated.  This theorem evaluates the code at the failing input: an
authenticated report of element type `example` against the stored word
`test`. -/
theorem C4_report_subrecord_generic_error_no_mutation :
    Report true (mkReportForm "test" "example") sampleStore =
      (⟨⟨"Something went wrong!", MsgType.error⟩, none⟩, sampleStore) := rfl

/-- C8: every `Report` call by an unauthenticated caller is rejected with
the login error and the store is returned untouched, whatever the form and
the store contents: the authentication check precedes every store access. -/
theorem C8_unauthenticated_report_rejected (fd : FormData) (st : Store) :
    Report false fd st =
      (⟨⟨"You have to login in order to report items.", MsgType.error⟩, none⟩, st) := rfl

/-- C10: the report form schema accepts only `word_text` and
`report_element`, and `Report` reads no other field: two requests agreeing
on those two fields and on the authentication status produce the same
result and the same store, whatever other form fields are supplied. -/
theorem C10_report_depends_only_on_declared_fields
    (fd1 fd2 : FormData) (authed : Bool) (st : Store)
    (h1 : fd1.get "word_text" = fd2.get "word_text")
    (h2 : fd1.get "report_element" = fd2.get "report_element") :
    Report authed fd1 st = Report authed fd2 st := by
  have hp : parseReportForm fd1 = parseReportForm fd2 := by
    unfold parseReportForm
    rw [h1, h2]
  unfold Report
  rw [hp]

/-- A report form carrying an extra undeclared field besides the two
declared ones. -/
def reportFormWithExtraField : FormData :=
  ⟨fun k => if k = "word_text" then some "test"
    else if k = "report_element" then some "word"
    else if k = "element_id" then some "reference-of-test" else none⟩

/-- C10 witness: a concrete pair of authenticated requests for the word
`test`, one carrying an extra `element_id` field, give identical outcomes. -/
theorem C10_witness :
    Report true reportFormWithExtraField sampleStore =
      Report true (mkReportForm "test" "word") sampleStore :=
  C10_report_depends_only_on_declared_fields reportFormWithExtraField
    (mkReportForm "test" "word") true sampleStore rfl rfl

/-- The store obtained by adding the word `hello` to an empty store. -/
def helloStore : Store :=
  (addWord (mkDefinitionForm "hello" "a standard greeting word" "dictionary-ref-01")
    (fun _ => [])).2

/-- C2 counterexample: the claim states that after `AddWord` the looked-up
word has empty example and citation collections.  On the code, a fresh
`AddWord` of the valid text `hello` yields a word whose example and mention
collections each hold one placeholder record, so they have length 1, not 0. -/
theorem C2_counterexample :
    (lookupWord helloStore "hello").map (fun w => w.examples.length) = some 1 ∧
    (lookupWord helloStore "hello").map (fun w => w.mentions.length) = some 1 ∧
    (lookupWord helloStore "hello").map (fun w => w.examples.length) ≠ some 0 :=
  ⟨rfl, rfl, by decide⟩

/-- The store obtained by adding the mixed-case word `Run` (stored
lowercased as `run`) to an empty store. -/
def runStore : Store :=
  (addWord (mkDefinitionForm "Run" "to move quickly on foot" "oxford-dictionary-9")
    (fun _ => [])).2

/-- C3 counterexample: the claim states that every later operation that
refers to a stored word by any casing locates the same record.  On the
code, after adding `Run` (stored as `run`), `addDefinition` called with the
original casing `Run` and a fresh reference reports success yet appends
nothing: its match predicate compares the submitted text verbatim, so the
stored word still has exactly its one original definition. -/
theorem C3_counterexample :
    lookupWord runStore "Run" =
      some (mkNewWord "Run" "to move quickly on foot" "oxford-dictionary-9") ∧
    (addDefinition (mkDefinitionForm "Run" "to operate or function" "cambridge-dict-07")
        runStore).1.message.type = MsgType.success ∧
    (lookupWord (addDefinition
        (mkDefinitionForm "Run" "to operate or function" "cambridge-dict-07") runStore).2
        "Run").map (fun w => w.definitions.length) = some 1 :=
  ⟨rfl, rfl, rfl⟩

theorem addWord_fresh {fd : FormData} {st : Store} {wt dc dr : String}
    (hparse : parseAddDefinitionForm fd = some ⟨wt, dc, dr⟩)
    (hfresh : (st (shardKey (strTake (strLower wt) 2))).find?
        (fun w => w.text == strLower wt) = none) :
    addWord fd st =
      (⟨⟨strLower wt ++ " has been successfully added.", MsgType.success⟩, none⟩,
       setShard st (shardKey (strTake (strLower wt) 2))
         (st (shardKey (strTake (strLower wt) 2)) ++ [mkNewWord wt dc dr])) := by
  unfold addWord
  rw [hparse]
  dsimp only [getWhere, mkNewWord]
  rw [hfresh]
  dsimp only [foundText]
  rw [if_neg (fun h => h rfl)]

theorem addWord_dup {fd : FormData} {st : Store} {wt dc dr : String} {w : Word}
    (hparse : parseAddDefinitionForm fd = some ⟨wt, dc, dr⟩)
    (hfound : (st (shardKey (strTake (strLower wt) 2))).find?
        (fun w => w.text == strLower wt) = some w)
    (hw : w.text ≠ "") :
    addWord fd st =
      (⟨⟨strLower wt ++ " already exists.", MsgType.warning⟩,
        some ⟨["word already exists"], [], []⟩⟩, st) := by
  unfold addWord
  rw [hparse]
  dsimp only [getWhere, mkNewWord]
  rw [hfound]
  dsimp only [foundText]
  rw [if_pos hw]

/-- C2, amended: the claim as stated fails because the example and citation
collections of a fresh word are not empty.  Amended claim: for every valid
text not yet stored, `AddWord` followed immediately by a lookup of the same
text returns a Word with approvals 1 and disapprovals 0, exactly one
Definition built from the submitted content and reference, and Example and
Citation collections each holding a single placeholder record with empty
string fields and counters `V = 1`, `NV = 0`, rather than being empty. -/
theorem C2_amended_addWord_then_lookup (fd : FormData) (st : Store) (wt dc dr : String)
    (hwt : fd.get "word_text" = some wt) (hdc : fd.get "def_content" = some dc)
    (hdr : fd.get "def_reference" = some dr)
    (hw1 : 2 ≤ wt.length) (hw2 : wt.length ≤ 50)
    (hc1 : 10 ≤ dc.length) (hc2 : dc.length ≤ 255)
    (hr1 : 10 ≤ dr.length) (hr2 : dr.length ≤ 45)
    (hfresh : lookupWord st wt = none) :
    (addWord fd st).1.message.type = MsgType.success ∧
    lookupWord (addWord fd st).2 wt =
      some ⟨strLower wt, [⟨dc, dr, 1, 0⟩], [⟨"", "", 1, 0⟩], [⟨"", "", 1, 0⟩], 1, 0⟩ := by
  have hparse := parseAddDefinitionForm_eq hwt hdc hdr hw1 hw2 hc1 hc2 hr1 hr2
  have hfresh2 : (st (shardKey (strTake (strLower wt) 2))).find?
      (fun w => w.text == strLower wt) = none := hfresh
  rw [addWord_fresh hparse hfresh2]
  refine ⟨rfl, ?_⟩
  unfold lookupWord
  dsimp only
  rw [setShard_self, List.find?_append, hfresh2]
  simp [mkNewWord]

/-- C2 witness: adding the fresh valid word `hello` to the empty store and
looking it up yields exactly the seeded word document. -/
theorem C2_witness :
    (addWord (mkDefinitionForm "hello" "a standard greeting word" "dictionary-ref-01")
      (fun _ => [])).1.message.type = MsgType.success ∧
    lookupWord (addWord (mkDefinitionForm "hello" "a standard greeting word"
        "dictionary-ref-01") (fun _ => [])).2 "hello" =
      some ⟨strLower "hello", [⟨"a standard greeting word", "dictionary-ref-01", 1, 0⟩],
        [⟨"", "", 1, 0⟩], [⟨"", "", 1, 0⟩], 1, 0⟩ :=
  C2_amended_addWord_then_lookup
    (mkDefinitionForm "hello" "a standard greeting word" "dictionary-ref-01")
    (fun _ => []) "hello" "a standard greeting word" "dictionary-ref-01"
    rfl rfl rfl (by decide) (by decide) (by decide) (by decide) (by decide) (by decide) rfl

/-- C5: calling `addWord` twice with the same valid, previously unstored
text succeeds on the first call, yields the duplicate-word warning (not a
hard error) on the second, leaves the store of the first call untouched,
and the shard then holds exactly one word with that text. -/
theorem C5_addWord_twice_duplicate_warning (fd : FormData) (st : Store) (wt dc dr : String)
    (hwt : fd.get "word_text" = some wt) (hdc : fd.get "def_content" = some dc)
    (hdr : fd.get "def_reference" = some dr)
    (hw1 : 2 ≤ wt.length) (hw2 : wt.length ≤ 50)
    (hc1 : 10 ≤ dc.length) (hc2 : dc.length ≤ 255)
    (hr1 : 10 ≤ dr.length) (hr2 : dr.length ≤ 45)
    (hfresh : lookupWord st wt = none) :
    (addWord fd st).1.message.type = MsgType.success ∧
    (addWord fd (addWord fd st).2).1.message.type = MsgType.warning ∧
    (addWord fd (addWord fd st).2).2 = (addWord fd st).2 ∧
    ((addWord fd (addWord fd st).2).2 (shardKey (strTake (strLower wt) 2))).countP
      (fun w => w.text == strLower wt) = 1 := by
  have hparse := parseAddDefinitionForm_eq hwt hdc hdr hw1 hw2 hc1 hc2 hr1 hr2
  have hfresh2 : (st (shardKey (strTake (strLower wt) 2))).find?
      (fun w => w.text == strLower wt) = none := hfresh
  have h1 := addWord_fresh hparse hfresh2
  have hkey := setShard_self st (shardKey (strTake (strLower wt) 2))
    (st (shardKey (strTake (strLower wt) 2)) ++ [mkNewWord wt dc dr])
  have hfound : ((addWord fd st).2 (shardKey (strTake (strLower wt) 2))).find?
      (fun w => w.text == strLower wt) = some (mkNewWord wt dc dr) := by
    rw [h1]
    dsimp only
    rw [hkey, List.find?_append, hfresh2]
    simp [mkNewWord]
  have hne : (mkNewWord wt dc dr).text ≠ "" := by
    show strLower wt ≠ ""
    exact strLower_ne_empty (by omega)
  have h2 := addWord_dup hparse hfound hne
  refine ⟨by rw [h1], by rw [h2], by rw [h2], ?_⟩
  rw [h2]
  dsimp only
  rw [h1]
  dsimp only
  rw [hkey, List.countP_append]
  have hzero : (st (shardKey (strTake (strLower wt) 2))).countP
      (fun w => w.text == strLower wt) = 0 :=
    List.countP_eq_zero.mpr (List.find?_eq_none.mp hfresh2)
  rw [hzero]
  simp [mkNewWord]

/-- C5 witness: adding `hello2` twice to the empty store gives a success
then a warning, leaves the store as after the first call, and the shard
holds exactly one `hello2` word. -/
theorem C5_witness :
    (addWord (mkDefinitionForm "hello2" "a second greeting word" "dictionary-ref-02")
      (fun _ => [])).1.message.type = MsgType.success ∧
    (addWord (mkDefinitionForm "hello2" "a second greeting word" "dictionary-ref-02")
      (addWord (mkDefinitionForm "hello2" "a second greeting word" "dictionary-ref-02")
        (fun _ => [])).2).1.message.type = MsgType.warning ∧
    (addWord (mkDefinitionForm "hello2" "a second greeting word" "dictionary-ref-02")
      (addWord (mkDefinitionForm "hello2" "a second greeting word" "dictionary-ref-02")
        (fun _ => [])).2).2 =
      (addWord (mkDefinitionForm "hello2" "a second greeting word" "dictionary-ref-02")
        (fun _ => [])).2 ∧
    ((addWord (mkDefinitionForm "hello2" "a second greeting word" "dictionary-ref-02")
      (addWord (mkDefinitionForm "hello2" "a second greeting word" "dictionary-ref-02")
        (fun _ => [])).2).2 (shardKey (strTake (strLower "hello2") 2))).countP
      (fun w => w.text == strLower "hello2") = 1 :=
  C5_addWord_twice_duplicate_warning
    (mkDefinitionForm "hello2" "a second greeting word" "dictionary-ref-02")
    (fun _ => []) "hello2" "a second greeting word" "dictionary-ref-02"
    rfl rfl rfl (by decide) (by decide) (by decide) (by decide) (by decide) (by decide) rfl

theorem find?_dup_none {l : List Word} {dr : String}
    (h : ∀ w ∈ l, ∀ d ∈ w.definitions, d.reference ≠ dr) :
    l.find? (fun w => (w.definitions.find? (fun d => d.reference == dr)).isSome) = none := by
  apply List.find?_eq_none.mpr
  intro w hw
  have hin : w.definitions.find? (fun d => d.reference == dr) = none :=
    List.find?_eq_none.mpr (fun d hd => by simpa [beq_iff_eq] using h w hw d hd)
  simp [hin]

theorem addDefinition_dup {fd : FormData} {st : Store} {wt dc dr : String} {w : Word}
    (hparse : parseAddDefinitionForm fd = some ⟨wt, dc, dr⟩)
    (hfound : (st (shardKey (strTake wt 2))).find?
      (fun w => (w.definitions.find? (fun d => d.reference == dr)).isSome) = some w)
    (hw : w.text ≠ "") :
    addDefinition fd st =
      (⟨⟨"Failed: there is already a definition from the same reference included!",
         MsgType.error⟩, none⟩, st) := by
  unfold addDefinition
  rw [hparse]
  dsimp only [getWhere]
  rw [hfound]
  dsimp only [foundText]
  rw [if_pos hw]

theorem addDefinition_nodup {fd : FormData} {st : Store} {wt dc dr : String}
    (hparse : parseAddDefinitionForm fd = some ⟨wt, dc, dr⟩)
    (hdupnone : (st (shardKey (strTake wt 2))).find?
      (fun w => (w.definitions.find? (fun d => d.reference == dr)).isSome) = none) :
    addDefinition fd st =
      (⟨⟨"Your definition has been added successfully. Refresh the page and check it out.",
         MsgType.success⟩, none⟩,
       setShard st (shardKey (strTake wt 2))
         (updateWhere (fun w => w.text == wt)
           (fun prev => { prev with definitions := prev.definitions ++ [⟨dc, dr, 1, 0⟩] })
           (st (shardKey (strTake wt 2))))) := by
  unfold addDefinition
  rw [hparse]
  dsimp only [getWhere]
  rw [hdupnone]
  dsimp only [foundText]
  rw [if_neg (fun h => h rfl)]

theorem addDefinition_noop {fd : FormData} {st : Store} {wt dc dr : String}
    (hparse : parseAddDefinitionForm fd = some ⟨wt, dc, dr⟩)
    (hnodup : ∀ w ∈ st (shardKey (strTake wt 2)), ∀ d ∈ w.definitions, d.reference ≠ dr)
    (hnomatch : ∀ w ∈ st (shardKey (strTake wt 2)), w.text ≠ wt) :
    (addDefinition fd st).1.message.type = MsgType.success ∧
    (addDefinition fd st).2 = st := by
  rw [addDefinition_nodup hparse (find?_dup_none hnodup)]
  refine ⟨rfl, ?_⟩
  dsimp only
  rw [updateWhere_no_match (fun w hw => beq_eq_false_iff_ne.mpr (hnomatch w hw)),
    setShard_same_store]

/-- A mention form holding the three fields `addMention` reads. -/
def mkMentionForm (wt mt mh : String) : FormData :=
  ⟨fun k => if k = "word_text" then some wt
    else if k = "mention_title" then some mt
    else if k = "mention_hyperlink" then some mh else none⟩

theorem parseReportForm_eq {fd : FormData} {wt re0 : String}
    (hwt : fd.get "word_text" = some wt) (hre : fd.get "report_element" = some re0)
    (hw1 : 2 ≤ wt.length) (hw2 : wt.length ≤ 50) :
    parseReportForm fd = some ⟨wt, re0⟩ := by
  unfold parseReportForm zlen
  rw [hwt, hre]
  dsimp only
  rw [if_pos ⟨hw1, hw2⟩]

theorem parseAddMentionForm_eq {fd : FormData} {wt mt mh : String}
    (hwt : fd.get "word_text" = some wt) (hmt : fd.get "mention_title" = some mt)
    (hmh : fd.get "mention_hyperlink" = some mh)
    (hw1 : 2 ≤ wt.length) (hw2 : wt.length ≤ 50)
    (ht1 : 10 ≤ mt.length) (ht2 : mt.length ≤ 45)
    (hurl : "https://".data.isPrefixOf mh.data = true) :
    parseAddMentionForm fd = some ⟨wt, mt, mh⟩ := by
  unfold parseAddMentionForm zlen zhttps
  rw [hwt, hmt, hmh]
  dsimp only
  rw [if_pos ⟨hw1, hw2⟩, if_pos ⟨ht1, ht2⟩, if_pos hurl]

theorem addExample_noop {fd : FormData} {st : Store} {wt et er : String}
    (hparse : parseAddExampleForm fd = some ⟨wt, et, er⟩)
    (hnomatch : ∀ w ∈ st (shardKey (strTake wt 2)), w.text ≠ wt) :
    (addExample fd st).1.message.type = MsgType.success ∧
    (addExample fd st).2 = st := by
  unfold addExample
  rw [hparse]
  dsimp only
  refine ⟨rfl, ?_⟩
  rw [updateWhere_no_match (fun w hw => beq_eq_false_iff_ne.mpr (hnomatch w hw)),
    setShard_same_store]

theorem addMention_noop {fd : FormData} {st : Store} {wt mt mh : String}
    (hparse : parseAddMentionForm fd = some ⟨wt, mt, mh⟩)
    (hnomatch : ∀ w ∈ st (shardKey (strTake wt 2)), w.text ≠ wt) :
    (addMention fd st).1.message.type = MsgType.success ∧
    (addMention fd st).2 = st := by
  unfold addMention
  rw [hparse]
  dsimp only
  refine ⟨rfl, ?_⟩
  rw [updateWhere_no_match (fun w hw => beq_eq_false_iff_ne.mpr (hnomatch w hw)),
    setShard_same_store]

theorem findIdx?_no_match {l : List Word} {wt : String}
    (h : ∀ w ∈ l, w.text ≠ wt) : l.findIdx? (fun w => w.text == wt) = none := by
  rw [List.findIdx?_eq_none_iff]
  intro w hw
  simpa using h w hw

theorem report_word_not_found {fd : FormData} {st : Store} {wt re0 : String}
    (hparse : parseReportForm fd = some ⟨wt, re0⟩)
    (hnone : (st (shardKey (strTake wt 2))).findIdx? (fun w => w.text == wt) = none) :
    Report true fd st = (⟨⟨"Cannot find the word ", MsgType.error⟩, none⟩, st) := by
  unfold Report
  rw [hparse]
  dsimp only
  rw [hnone]
  rfl

/-- C3, amended: the claim as stated fails because only `addWord`
lowercases the submitted text.  Amended claim: a word added with
mixed-case text is stored under its lowercased text and the (spec-modelled,
canonicalising) lookup finds it under any casing of the same text; but
`addDefinition`, `addExample`, `addMention` (citations) and `Report` match
the caller-supplied text verbatim, so called with a casing that is not the
stored lowercase text (on a store of lowercased words) they fail to locate
the record: `addDefinition` (absent a duplicate reference in the shard),
`addExample` and `addMention` report success while leaving the store
completely unchanged, and an authenticated `Report` fails with the
word-not-found error, also leaving the store unchanged. -/
theorem C3_amended_casing_behaviour :
    (∀ (fd : FormData) (st : Store) (wt dc dr c : String),
      fd.get "word_text" = some wt → fd.get "def_content" = some dc →
      fd.get "def_reference" = some dr →
      2 ≤ wt.length → wt.length ≤ 50 → 10 ≤ dc.length → dc.length ≤ 255 →
      10 ≤ dr.length → dr.length ≤ 45 →
      lookupWord st wt = none → strLower c = strLower wt →
      lookupWord (addWord fd st).2 c = some (mkNewWord wt dc dr)) ∧
    (∀ (fd : FormData) (st : Store) (wt dc dr : String),
      fd.get "word_text" = some wt → fd.get "def_content" = some dc →
      fd.get "def_reference" = some dr →
      2 ≤ wt.length → wt.length ≤ 50 → 10 ≤ dc.length → dc.length ≤ 255 →
      10 ≤ dr.length → dr.length ≤ 45 →
      wt ≠ strLower wt →
      (∀ k w, w ∈ st k → w.text = strLower w.text) →
      (∀ w ∈ st (shardKey (strTake wt 2)), ∀ d ∈ w.definitions, d.reference ≠ dr) →
      (addDefinition fd st).1.message.type = MsgType.success ∧
      (addDefinition fd st).2 = st) ∧
    (∀ (fd : FormData) (st : Store) (wt et er : String),
      fd.get "word_text" = some wt → fd.get "example_text" = some et →
      fd.get "example_reference" = some er →
      2 ≤ wt.length → wt.length ≤ 50 → 10 ≤ et.length → et.length ≤ 145 →
      er.length ≤ 45 →
      wt ≠ strLower wt →
      (∀ k w, w ∈ st k → w.text = strLower w.text) →
      (addExample fd st).1.message.type = MsgType.success ∧
      (addExample fd st).2 = st) ∧
    (∀ (fd : FormData) (st : Store) (wt mt mh : String),
      fd.get "word_text" = some wt → fd.get "mention_title" = some mt →
      fd.get "mention_hyperlink" = some mh →
      2 ≤ wt.length → wt.length ≤ 50 → 10 ≤ mt.length → mt.length ≤ 45 →
      "https://".data.isPrefixOf mh.data = true →
      wt ≠ strLower wt →
      (∀ k w, w ∈ st k → w.text = strLower w.text) →
      (addMention fd st).1.message.type = MsgType.success ∧
      (addMention fd st).2 = st) ∧
    (∀ (fd : FormData) (st : Store) (wt re0 : String),
      fd.get "word_text" = some wt → fd.get "report_element" = some re0 →
      2 ≤ wt.length → wt.length ≤ 50 →
      wt ≠ strLower wt →
      (∀ k w, w ∈ st k → w.text = strLower w.text) →
      Report true fd st =
        (⟨⟨"Cannot find the word ", MsgType.error⟩, none⟩, st)) := by
  refine ⟨?_, ?_, ?_, ?_, ?_⟩
  · intro fd st wt dc dr c hwt hdc hdr hw1 hw2 hc1 hc2 hr1 hr2 hfresh hcase
    have hparse := parseAddDefinitionForm_eq hwt hdc hdr hw1 hw2 hc1 hc2 hr1 hr2
    have hfresh2 : (st (shardKey (strTake (strLower wt) 2))).find?
        (fun w => w.text == strLower wt) = none := hfresh
    unfold lookupWord
    rw [hcase, addWord_fresh hparse hfresh2]
    dsimp only
    rw [setShard_self, List.find?_append, hfresh2]
    simp [mkNewWord]
  · intro fd st wt dc dr hwt hdc hdr hw1 hw2 hc1 hc2 hr1 hr2 hcase hlower hnodup
    have hparse := parseAddDefinitionForm_eq hwt hdc hdr hw1 hw2 hc1 hc2 hr1 hr2
    refine addDefinition_noop hparse hnodup ?_
    intro w hw hcontra
    exact hcase (hcontra ▸ hlower _ w hw)
  · intro fd st wt et er hwt het her hw1 hw2 he1 he2 hr2 hcase hlower
    have hparse := parseAddExampleForm_eq hwt het her hw1 hw2 he1 he2 hr2
    refine addExample_noop hparse ?_
    intro w hw hcontra
    exact hcase (hcontra ▸ hlower _ w hw)
  · intro fd st wt mt mh hwt hmt hmh hw1 hw2 ht1 ht2 hurl hcase hlower
    have hparse := parseAddMentionForm_eq hwt hmt hmh hw1 hw2 ht1 ht2 hurl
    refine addMention_noop hparse ?_
    intro w hw hcontra
    exact hcase (hcontra ▸ hlower _ w hw)
  · intro fd st wt re0 hwt hre hw1 hw2 hcase hlower
    have hparse := parseReportForm_eq hwt hre hw1 hw2
    refine report_word_not_found hparse (findIdx?_no_match ?_)
    intro w hw hcontra
    exact hcase (hcontra ▸ hlower _ w hw)

theorem runStore_texts_lowercase : ∀ k w, w ∈ runStore k → w.text = strLower w.text := by
  intro k w hw
  by_cases hk : k = shardKey (strTake (strLower "Run") 2)
  · subst hk
    rw [show runStore (shardKey (strTake (strLower "Run") 2)) =
        [mkNewWord "Run" "to move quickly on foot" "oxford-dictionary-9"] from rfl]
      at hw
    have hww : w = mkNewWord "Run" "to move quickly on foot" "oxford-dictionary-9" := by
      simpa using hw
    subst hww
    rfl
  · have hempty : runStore k = [] := by
      show setShard (fun _ => []) (shardKey (strTake (strLower "Run") 2)) _ k = []
      unfold setShard
      rw [if_neg hk]
    rw [hempty] at hw
    simp at hw

/-- C3 witness: adding `Run` to the empty store makes it retrievable by the
lookup under the casing `RUN`, while `addDefinition` (with a fresh
reference), `addExample` and `addMention` invoked with the casing `Run`
all report success and leave the store unchanged, and an authenticated
`Report` for `Run` fails with the word-not-found error, the store again
unchanged. -/
theorem C3_witness :
    lookupWord (addWord (mkDefinitionForm "Run" "to move quickly on foot"
        "oxford-dictionary-9") (fun _ => [])).2 "RUN" =
      some (mkNewWord "Run" "to move quickly on foot" "oxford-dictionary-9") ∧
    ((addDefinition (mkDefinitionForm "Run" "to operate or function" "cambridge-dict-07")
        runStore).1.message.type = MsgType.success ∧
     (addDefinition (mkDefinitionForm "Run" "to operate or function" "cambridge-dict-07")
        runStore).2 = runStore) ∧
    ((addExample (mkExampleForm "Run" "he runs every morning" "")
        runStore).1.message.type = MsgType.success ∧
     (addExample (mkExampleForm "Run" "he runs every morning" "")
        runStore).2 = runStore) ∧
    ((addMention (mkMentionForm "Run" "a running magazine" "https://example.com/run")
        runStore).1.message.type = MsgType.success ∧
     (addMention (mkMentionForm "Run" "a running magazine" "https://example.com/run")
        runStore).2 = runStore) ∧
    Report true (mkReportForm "Run" "word") runStore =
      (⟨⟨"Cannot find the word ", MsgType.error⟩, none⟩, runStore) :=
  ⟨C3_amended_casing_behaviour.1
      (mkDefinitionForm "Run" "to move quickly on foot" "oxford-dictionary-9")
      (fun _ => []) "Run" "to move quickly on foot" "oxford-dictionary-9" "RUN"
      rfl rfl rfl (by decide) (by decide) (by decide) (by decide) (by decide) (by decide)
      rfl (by decide),
   C3_amended_casing_behaviour.2.1
      (mkDefinitionForm "Run" "to operate or function" "cambridge-dict-07")
      runStore "Run" "to operate or function" "cambridge-dict-07"
      rfl rfl rfl (by decide) (by decide) (by decide) (by decide) (by decide) (by decide)
      (by decide) runStore_texts_lowercase (by decide),
   C3_amended_casing_behaviour.2.2.1
      (mkExampleForm "Run" "he runs every morning" "")
      runStore "Run" "he runs every morning" ""
      rfl rfl rfl (by decide) (by decide) (by decide) (by decide) (by decide)
      (by decide) runStore_texts_lowercase,
   C3_amended_casing_behaviour.2.2.2.1
      (mkMentionForm "Run" "a running magazine" "https://example.com/run")
      runStore "Run" "a running magazine" "https://example.com/run"
      rfl rfl rfl (by decide) (by decide) (by decide) (by decide) (by decide)
      (by decide) runStore_texts_lowercase,
   C3_amended_casing_behaviour.2.2.2.2
      (mkReportForm "Run" "word") runStore "Run" "word"
      rfl rfl (by decide) (by decide) (by decide) runStore_texts_lowercase⟩

/-- C6: `addDefinition` fails with the duplicate-reference error whenever
any word of the shard of the target text (not only the target word itself,
all stored words having non-empty texts) already holds a definition with
the submitted reference, leaving the store untouched; with no such
duplicate anywhere in the shard, it reports success and appends the new
definition to the definitions sequence of the first word whose text equals
the submitted text. -/
theorem C6_addDefinition_shard_wide_duplicate_check
    (fd : FormData) (st : Store) (wt dc dr : String)
    (hwt : fd.get "word_text" = some wt) (hdc : fd.get "def_content" = some dc)
    (hdr : fd.get "def_reference" = some dr)
    (hw1 : 2 ≤ wt.length) (hw2 : wt.length ≤ 50)
    (hc1 : 10 ≤ dc.length) (hc2 : dc.length ≤ 255)
    (hr1 : 10 ≤ dr.length) (hr2 : dr.length ≤ 45)
    (hwf : ∀ w ∈ st (shardKey (strTake wt 2)), w.text ≠ "") :
    ((∃ w ∈ st (shardKey (strTake wt 2)), ∃ d ∈ w.definitions, d.reference = dr) →
      addDefinition fd st =
        (⟨⟨"Failed: there is already a definition from the same reference included!",
           MsgType.error⟩, none⟩, st)) ∧
    ((∀ w ∈ st (shardKey (strTake wt 2)), ∀ d ∈ w.definitions, d.reference ≠ dr) →
      ∀ w0, (st (shardKey (strTake wt 2))).find? (fun w => w.text == wt) = some w0 →
        (addDefinition fd st).1.message.type = MsgType.success ∧
        ((addDefinition fd st).2 (shardKey (strTake wt 2))).find? (fun w => w.text == wt) =
          some { w0 with definitions := w0.definitions ++ [⟨dc, dr, 1, 0⟩] }) := by
  have hparse := parseAddDefinitionForm_eq hwt hdc hdr hw1 hw2 hc1 hc2 hr1 hr2
  constructor
  · rintro ⟨w, hw, d, hd, hdref⟩
    have hsome : ((st (shardKey (strTake wt 2))).find?
        (fun w => (w.definitions.find? (fun d => d.reference == dr)).isSome)).isSome := by
      apply List.find?_isSome.mpr
      refine ⟨w, hw, ?_⟩
      have hdin : (w.definitions.find? (fun d2 => d2.reference == dr)).isSome :=
        List.find?_isSome.mpr ⟨d, hd, by simp [hdref]⟩
      simpa using hdin
    obtain ⟨w1, hw1⟩ := Option.isSome_iff_exists.mp hsome
    exact addDefinition_dup hparse hw1 (hwf w1 (List.mem_of_find?_eq_some hw1))
  · intro hnodup w0 hfind
    rw [addDefinition_nodup hparse (find?_dup_none hnodup)]
    refine ⟨rfl, ?_⟩
    dsimp only
    rw [setShard_self]
    apply find?_updateWhere hfind
    simpa using List.find?_some hfind

/-- C6 witness: on a store holding the single word `test` with one
definition from `reference-of-test`, adding a definition with a fresh
reference succeeds and appends it to the `test` word. -/
theorem C6_witness :
    (addDefinition (mkDefinitionForm "test" "an additional meaning text" "new-reference-001")
      sampleStore).1.message.type = MsgType.success ∧
    ((addDefinition (mkDefinitionForm "test" "an additional meaning text" "new-reference-001")
      sampleStore).2 (shardKey (strTake "test" 2))).find? (fun w => w.text == "test") =
      some { sampleWord with definitions :=
        sampleWord.definitions ++ [⟨"an additional meaning text", "new-reference-001", 1, 0⟩] } :=
  (C6_addDefinition_shard_wide_duplicate_check
    (mkDefinitionForm "test" "an additional meaning text" "new-reference-001")
    sampleStore "test" "an additional meaning text" "new-reference-001"
    rfl rfl rfl (by decide) (by decide) (by decide) (by decide) (by decide) (by decide)
    (by decide)).2 (by decide) sampleWord rfl

/-- C7: when the `updateWhere` match predicate finds no word in the shard
(the submitted word text is not stored there), the operation is a silent
no-op rather than an error: `addExample` (and `addDefinition`, given no
duplicate reference in the shard) returns a success result and the store
is left completely unchanged. -/
theorem C7_updateWhere_miss_is_silent_noop :
    (∀ (fd : FormData) (st : Store) (wt et er : String),
      fd.get "word_text" = some wt → fd.get "example_text" = some et →
      fd.get "example_reference" = some er →
      2 ≤ wt.length → wt.length ≤ 50 → 10 ≤ et.length → et.length ≤ 145 →
      er.length ≤ 45 →
      (∀ w ∈ st (shardKey (strTake wt 2)), w.text ≠ wt) →
      (addExample fd st).1.message.type = MsgType.success ∧
      (addExample fd st).2 = st) ∧
    (∀ (fd : FormData) (st : Store) (wt dc dr : String),
      fd.get "word_text" = some wt → fd.get "def_content" = some dc →
      fd.get "def_reference" = some dr →
      2 ≤ wt.length → wt.length ≤ 50 → 10 ≤ dc.length → dc.length ≤ 255 →
      10 ≤ dr.length → dr.length ≤ 45 →
      (∀ w ∈ st (shardKey (strTake wt 2)), ∀ d ∈ w.definitions, d.reference ≠ dr) →
      (∀ w ∈ st (shardKey (strTake wt 2)), w.text ≠ wt) →
      (addDefinition fd st).1.message.type = MsgType.success ∧
      (addDefinition fd st).2 = st) := by
  constructor
  · intro fd st wt et er hwt het her hw1 hw2 he1 he2 hr2 hnomatch
    have hparse := parseAddExampleForm_eq hwt het her hw1 hw2 he1 he2 hr2
    unfold addExample
    rw [hparse]
    dsimp only
    refine ⟨rfl, ?_⟩
    rw [updateWhere_no_match (fun w hw => beq_eq_false_iff_ne.mpr (hnomatch w hw)),
      setShard_same_store]
  · intro fd st wt dc dr hwt hdc hdr hw1 hw2 hc1 hc2 hr1 hr2 hnodup hnomatch
    have hparse := parseAddDefinitionForm_eq hwt hdc hdr hw1 hw2 hc1 hc2 hr1 hr2
    exact addDefinition_noop hparse hnodup hnomatch

/-- C7 witness: on the store holding only the word `test`, adding an
example and adding a definition for the unstored word `zebra` both report
success and leave the store unchanged. -/
theorem C7_witness :
    ((addExample (mkExampleForm "zebra" "used in a sentence here" "") sampleStore).1.message.type
        = MsgType.success ∧
     (addExample (mkExampleForm "zebra" "used in a sentence here" "") sampleStore).2
        = sampleStore) ∧
    ((addDefinition (mkDefinitionForm "zebra" "a striped wild animal" "animal-ref-00001")
        sampleStore).1.message.type = MsgType.success ∧
     (addDefinition (mkDefinitionForm "zebra" "a striped wild animal" "animal-ref-00001")
        sampleStore).2 = sampleStore) :=
  ⟨C7_updateWhere_miss_is_silent_noop.1
      (mkExampleForm "zebra" "used in a sentence here" "") sampleStore
      "zebra" "used in a sentence here" ""
      rfl rfl rfl (by decide) (by decide) (by decide) (by decide) (by decide) (by decide),
   C7_updateWhere_miss_is_silent_noop.2
      (mkDefinitionForm "zebra" "a striped wild animal" "animal-ref-00001") sampleStore
      "zebra" "a striped wild animal" "animal-ref-00001"
      rfl rfl rfl (by decide) (by decide) (by decide) (by decide) (by decide) (by decide)
      (by decide) (by decide)⟩

theorem reportElement_ok_le {word : Word} {et : String} {w2 : Word}
    (h : reportElement word et = Except.ok w2) : wordLe word w2 := by
  unfold reportElement at h
  split at h
  · injection h with h2
    subst h2
    exact ⟨le_refl _, Nat.le_add_right _ _, prefLe_refl defLe_refl _,
      prefLe_refl exampleLe_refl _, prefLe_refl mentionLe_refl _⟩
  · exact Except.noConfusion h

/-- C9: for every operation and every input, every record existing both
before and after the operation keeps its position and its approval and
disapproval counters never decrease: the operations only append records,
and the only counter mutation is the increment performed by `Report`. -/
theorem C9_scores_monotone (authed : Bool) (fd : FormData) (st : Store) :
    storeLe st (addWord fd st).2 ∧ storeLe st (addDefinition fd st).2 ∧
    storeLe st (addExample fd st).2 ∧ storeLe st (addMention fd st).2 ∧
    storeLe st (Report authed fd st).2 := by
  refine ⟨?_, ?_, ?_, ?_, ?_⟩
  · unfold addWord
    cases parseAddDefinitionForm fd with
    | none => exact storeLe_refl st
    | some f =>
      dsimp only
      split
      · exact storeLe_refl st
      · exact storeLe_setShard (prefLe_append wordLe_refl _ _)
  · unfold addDefinition
    cases parseAddDefinitionForm fd with
    | none => exact storeLe_refl st
    | some f =>
      dsimp only
      split
      · exact storeLe_refl st
      · apply storeLe_setShard
        apply prefLe_updateWhere wordLe_refl
        intro w
        exact ⟨le_refl _, le_refl _, prefLe_append defLe_refl _ _,
          prefLe_refl exampleLe_refl _, prefLe_refl mentionLe_refl _⟩
  · unfold addExample
    cases parseAddExampleForm fd with
    | none => exact storeLe_refl st
    | some f =>
      dsimp only
      apply storeLe_setShard
      apply prefLe_updateWhere wordLe_refl
      intro w
      exact ⟨le_refl _, le_refl _, prefLe_refl defLe_refl _,
        prefLe_append exampleLe_refl _ _, prefLe_refl mentionLe_refl _⟩
  · unfold addMention
    cases parseAddMentionForm fd with
    | none => exact storeLe_refl st
    | some f =>
      dsimp only
      apply storeLe_setShard
      apply prefLe_updateWhere wordLe_refl
      intro w
      exact ⟨le_refl _, le_refl _, prefLe_refl defLe_refl _,
        prefLe_refl exampleLe_refl _, prefLe_append mentionLe_refl _ _⟩
  · unfold Report
    dsimp only
    split
    · exact storeLe_refl st
    · split
      · exact storeLe_refl st
      · split
        · exact storeLe_refl st
        · split
          · exact storeLe_refl st
          · rename_i word hget
            split
            · exact storeLe_refl st
            · split
              · exact storeLe_refl st
              · split
                · exact storeLe_refl st
                · rename_i w2 heq
                  dsimp only
                  apply storeLe_setShard
                  apply prefLe_set wordLe_refl
                  intro a ha
                  rw [hget] at ha
                  injection ha with haw
                  subst haw
                  exact reportElement_ok_le heq

end Lexicon
